import Mathlib

/-!
Verification of the string built-in layer in
jerry-core/ecma/builtin-objects/ecma-builtin-string-prototype.cpp.

Strings are modelled as lists of UTF-16 code units (each a Nat below 0x10000).
External collaborators that are not part of the analysed source file
(index normalisation helper, character classification tables, iterator
access) are modelled from the specification; each such definition carries a
doc comment starting with "Modelled from the spec".
-/

set_option maxRecDepth 10000
set_option linter.unusedVariables false

/-- Substring of a code-unit list: the units in positions `[a, b)`.
Models `ecma_string_substr` and the chunk selection of
`ecma_builtin_string_prototype_object_replace_append_substr`. -/
def listSub (s : List Nat) (a b : Nat) : List Nat := (s.take b).drop a

/-- Modelled from the spec: `normalize_relative_index` /
`ecma_builtin_helper_string_index_normalize` (the helper lives outside the
analysed file).  Negative values clamp to `max (len + n) 0`, other values to
`min n len`.  (NaN, which maps to 0, is outside this integer model.) -/
def ecma_builtin_helper_string_index_normalize (n : Int) (len : Nat) : Nat :=
  if n < 0 then ((len : Int) + n).toNat else min n.toNat len

/-- The anchor scan of `ecma_builtin_string_prototype_object_index_of`
(source lines 387-415): starting at `i`, try to match the search string at
each anchor, for `fuel` anchors, returning the first matching anchor. -/
def index_of_first (s pat : List Nat) : Nat → Nat → Option Nat
  | _, 0 => none
  | i, fuel + 1 =>
    if pat.isPrefixOf (s.drop i) then some i
    else index_of_first s pat (i + 1) fuel

/-- `ecma_builtin_string_prototype_object_index_of` (source lines 310-431),
after coercion of the receiver and the arguments: `s` is the subject,
`search` the coerced search string, `pos` the coerced position number.
Returns the found index or -1.  Note the empty-search branch (line 358)
returns 0, not the normalised start. -/
def ecma_index_of (s search : List Nat) (pos : Int) : Int :=
  let start := ecma_builtin_helper_string_index_normalize pos s.length
  if search.length ≤ s.length then
    if search.length = 0 then 0
    else
      match index_of_first s search start (s.length - search.length + 1 - start) with
      | some i => (i : Int)
      | none => -1
  else -1

/-- An ECMA value, restricted to the shapes these claims need. -/
inductive EcmaValue where
  | undef : EcmaValue
  | num : Int → EcmaValue
  | str : List Nat → EcmaValue
  | obj : Nat → EcmaValue
deriving DecidableEq

/-- Fatal engine signals (`jerry_fatal` codes). -/
inductive JerryFatalCode where
  | unimplementedBuiltin : JerryFatalCode
deriving DecidableEq

/-- Outcome of a built-in routine: a normal completion carrying a value, a
throw completion carrying the thrown value, or a fatal engine stop (which
never returns to the caller). -/
inductive BuiltinOutcome where
  | value : EcmaValue → BuiltinOutcome
  | thrown : EcmaValue → BuiltinOutcome
  | fatal : JerryFatalCode → BuiltinOutcome
deriving DecidableEq

/-- Modelled from the spec: the `ECMA_BUILTIN_CP_UNIMPLEMENTED` macro body
is outside the analysed file; per the spec it raises a fatal
"not implemented" signal and never produces a value or a thrown outcome. -/
def ECMA_BUILTIN_CP_UNIMPLEMENTED : BuiltinOutcome :=
  .fatal .unimplementedBuiltin

/-- `ecma_builtin_string_prototype_object_last_index_of`
(source lines 442-448): a stub that raises the fatal signal. -/
def ecma_builtin_string_prototype_object_last_index_of
    (this_arg arg1 arg2 : EcmaValue) : BuiltinOutcome :=
  ECMA_BUILTIN_CP_UNIMPLEMENTED

/-- `ecma_builtin_string_prototype_object_split`
(source lines 1679-1685): a stub that raises the fatal signal. -/
def ecma_builtin_string_prototype_object_split
    (this_arg arg1 arg2 : EcmaValue) : BuiltinOutcome :=
  ECMA_BUILTIN_CP_UNIMPLEMENTED

/-- The argument-building loop of the callable branch of
`ecma_builtin_string_prototype_object_replace_get_string`
(source lines 1023-1037): element `i` of the match object is appended
for `i = 0, 1, ..., n-1`. -/
def replace_build_arguments (get : Nat → EcmaValue) : Nat → List EcmaValue
  | 0 => []
  | n + 1 => replace_build_arguments get n ++ [get n]

/-- The part of the replace context the callable branch reads. -/
structure ReplaceCallableCtx where
  regexp_or_search_string : EcmaValue
  input_string : EcmaValue
  match_start : Nat

/-- The callable branch of
`ecma_builtin_string_prototype_object_replace_get_string`
(source lines 998-1075): build the argument list from the match object
(entries 0 .. length-1), append the match start index and the input string,
invoke the replace function with the search value as the this binding
(line 1049), and coerce the result to string.  `call` abstracts
`ecma_op_function_call` as `this ↦ arguments ↦ result` and `to_string`
abstracts `ecma_op_to_string`. -/
def replace_get_string_callable
    (call : EcmaValue → List EcmaValue → EcmaValue)
    (to_string : EcmaValue → List Nat)
    (ctx : ReplaceCallableCtx)
    (match_length : Nat) (match_get : Nat → EcmaValue) : List Nat :=
  to_string (call ctx.regexp_or_search_string
    (replace_build_arguments match_get match_length ++
      [EcmaValue.num ctx.match_start, ctx.input_string]))

/-- C1: the claim states that for every subject and every fromIndex, when
the coerced search string is empty, indexOf returns the normalised start
position.  The code instead returns 0 unconditionally in the empty-search
branch: on subject "ab" with fromIndex 1 it returns 0 while the normalised
start position is 1.  This evaluates the embedded routine at that failing
input. -/
theorem index_of_empty_search_returns_zero :
    ecma_index_of [97, 98] [] 1 = 0 ∧
    ecma_builtin_helper_string_index_normalize 1 2 = 1 ∧ (0 : Int) ≠ 1 := by
  refine ⟨by decide, by decide, by decide⟩

/-- C9: for every receiver and arguments, the lastIndexOf and split
routines raise the fatal "not implemented" signal and never produce a
value or a thrown outcome. -/
theorem last_index_of_split_unimplemented (t a b : EcmaValue) :
    ecma_builtin_string_prototype_object_last_index_of t a b =
      .fatal .unimplementedBuiltin ∧
    ecma_builtin_string_prototype_object_split t a b =
      .fatal .unimplementedBuiltin ∧
    (∀ v, ecma_builtin_string_prototype_object_last_index_of t a b ≠ .value v ∧
          ecma_builtin_string_prototype_object_last_index_of t a b ≠ .thrown v) ∧
    (∀ v, ecma_builtin_string_prototype_object_split t a b ≠ .value v ∧
          ecma_builtin_string_prototype_object_split t a b ≠ .thrown v) := by
  refine ⟨rfl, rfl, fun v => ⟨?_, ?_⟩, fun v => ⟨?_, ?_⟩⟩ <;>
    simp [ecma_builtin_string_prototype_object_last_index_of,
          ecma_builtin_string_prototype_object_split,
          ECMA_BUILTIN_CP_UNIMPLEMENTED]

/-- C10: when the replacement is callable, the callable is invoked with the
search value (regexp object or coerced literal search string) as its this
binding, and with arguments: the capture strings of the match in order
starting with the whole match (entries 0 .. length-1 of the match object),
then the match start index, then the subject string. -/
theorem replace_callable_invocation
    (call : EcmaValue → List EcmaValue → EcmaValue)
    (to_string : EcmaValue → List Nat)
    (ctx : ReplaceCallableCtx) (len : Nat) (get : Nat → EcmaValue) :
    replace_get_string_callable call to_string ctx len get =
      to_string (call ctx.regexp_or_search_string
        ((List.range len).map get ++
          [EcmaValue.num ctx.match_start, ctx.input_string])) := by
  have hb : ∀ n, replace_build_arguments get n = (List.range n).map get := by
    intro n
    induction n with
    | zero => rfl
    | succ k ih => simp [replace_build_arguments, List.range_succ, ih]
  simp [replace_get_string_callable, hb]

/-- Character constant from lit-char-helpers: the dollar sign. -/
def LIT_CHAR_DOLLAR_SIGN : Nat := 36

/-- Character constant from lit-char-helpers: the ampersand. -/
def LIT_CHAR_AMPERSAND : Nat := 38

/-- Character constant from lit-char-helpers: the single quote. -/
def LIT_CHAR_SINGLE_QUOTE : Nat := 39

/-- Character constant from lit-char-helpers: the grave accent. -/
def LIT_CHAR_GRAVE_ACCENT : Nat := 96

/-- Character constant from lit-char-helpers: the digit zero. -/
def LIT_CHAR_0 : Nat := 48

/-- Character constant from lit-char-helpers: the digit one. -/
def LIT_CHAR_1 : Nat := 49

/-- Character constant from lit-char-helpers: the digit nine. -/
def LIT_CHAR_9 : Nat := 57

/-- The part of `ecma_builtin_replace_search_ctx_t` the template branch of
`replace_get_string` reads: the input string and its recorded length, the
match bounds, and the match-object reads (`groups i` is entry `i` of the
match object; `none` models the undefined value of a missing group). -/
structure ReplaceTemplateCtx where
  input : List Nat
  input_length : Nat
  match_start : Nat
  match_end : Nat
  groups : Nat → Option (List Nat)

/-- The template scanning loop of
`ecma_builtin_string_prototype_object_replace_get_string`
(source lines 1076-1215), transcribed over the replace string `repl`.
State: `it` is the iterator position (index of the next unread unit),
`prev` is previous_start, `cur` is current_position, `res` the result
accumulated so far.  Literal stretches of the template are appended lazily
as the chunk `[prev, cur)` of `repl` when an escape fires and once more
after the loop.  Reading a unit beyond the end of `repl` (iterator peek at
the end of the string) is modelled from the spec as yielding no character,
here the default 0, which matches none of the escape classes.  The fuel
argument only bounds the recursion; `repl.length + 1` always suffices
because every iteration consumes at least one unit. -/
def replace_template_loop (ctx : ReplaceTemplateCtx) (repl : List Nat) :
    Nat → Nat → Nat → Nat → List Nat → Option (List Nat)
  | 0, _, _, _, _ => none
  | fuel + 1, it, prev, cur, res =>
    if it < repl.length then
      if repl.getD it 0 = LIT_CHAR_DOLLAR_SIGN ∧ it + 1 < repl.length then
        if repl.getD (it + 1) 0 = LIT_CHAR_DOLLAR_SIGN then
          -- lines 1097-1099, 1130-1132: current_position is bumped during
          -- detection, so the appended chunk ends one past `cur` and
          -- includes the first dollar; the bump is then undone.
          replace_template_loop ctx repl fuel (it + 2) (cur + 2) (cur + 2)
            (res ++ listSub repl prev (cur + 1))
        else if repl.getD (it + 1) 0 = LIT_CHAR_GRAVE_ACCENT then
          -- lines 1134-1142: the input before the match is inserted.
          replace_template_loop ctx repl fuel (it + 2) (cur + 2) (cur + 2)
            (res ++ listSub repl prev cur ++
              listSub ctx.input 0 ctx.match_start)
        else if repl.getD (it + 1) 0 = LIT_CHAR_SINGLE_QUOTE then
          -- lines 1143-1151: the input after the match is inserted.
          replace_template_loop ctx repl fuel (it + 2) (cur + 2) (cur + 2)
            (res ++ listSub repl prev cur ++
              listSub ctx.input ctx.match_end ctx.input_length)
        else if repl.getD (it + 1) 0 = LIT_CHAR_AMPERSAND then
          -- lines 1152-1196 with index 0: the whole match is inserted
          -- (an undefined entry contributes the empty string).
          replace_template_loop ctx repl fuel (it + 2) (cur + 2) (cur + 2)
            (res ++ listSub repl prev cur ++ (ctx.groups 0).getD [])
        else if LIT_CHAR_1 ≤ repl.getD (it + 1) 0 ∧ repl.getD (it + 1) 0 ≤ LIT_CHAR_9 then
          if LIT_CHAR_0 ≤ repl.getD (it + 2) 0 ∧
              repl.getD (it + 2) 0 ≤ LIT_CHAR_9 then
            -- lines 1159-1170: a second digit 0-9 is consumed
            -- unconditionally and the two-digit group is read.
            replace_template_loop ctx repl fuel (it + 3) (cur + 3) (cur + 3)
              (res ++ listSub repl prev cur ++
                (ctx.groups ((repl.getD (it + 1) 0 - LIT_CHAR_0) * 10 +
                  (repl.getD (it + 2) 0 - LIT_CHAR_0))).getD [])
          else
            replace_template_loop ctx repl fuel (it + 2) (cur + 2) (cur + 2)
              (res ++ listSub repl prev cur ++
                (ctx.groups (repl.getD (it + 1) 0 - LIT_CHAR_0)).getD [])
        else if repl.getD (it + 1) 0 = LIT_CHAR_0 ∧ LIT_CHAR_1 ≤ repl.getD (it + 2) 0 ∧
            repl.getD (it + 2) 0 ≤ LIT_CHAR_9 then
          -- lines 1101-1110 and 1159-1170: a zero survives detection only
          -- when followed by a digit 1-9; the submatch index is then
          -- 0 * 10 plus that digit.
          replace_template_loop ctx repl fuel (it + 3) (cur + 3) (cur + 3)
            (res ++ listSub repl prev cur ++
              (ctx.groups (repl.getD (it + 2) 0 - LIT_CHAR_0)).getD [])
        else
          -- action reset to NULL: the dollar stays literal.
          replace_template_loop ctx repl fuel (it + 1) prev (cur + 1) res
      else
        replace_template_loop ctx repl fuel (it + 1) prev (cur + 1) res
    else
      some (res ++ listSub repl prev cur)

/-- The template branch of `replace_get_string`, run on the whole replace
string with the initial state of source lines 1078-1085. -/
def replace_template (ctx : ReplaceTemplateCtx) (repl : List Nat) :
    Option (List Nat) :=
  replace_template_loop ctx repl (repl.length + 1) 0 0 0 []

/-- The literal-search scan of
`ecma_builtin_string_prototype_object_replace_match`
(source lines 884-958): advance over the input; where the current unit
equals the first search unit, compare the remaining search units against
the following input units; on success the match bounds are the anchor and
the anchor plus the search length. -/
def replace_match_literal_scan (first : Nat) (stail : List Nat) :
    List Nat → Nat → Option (Nat × Nat)
  | [], _ => none
  | c :: rest, i =>
    if c = first ∧ stail.isPrefixOf rest then some (i, i + 1 + stail.length)
    else replace_match_literal_scan first stail rest (i + 1)

/-- The literal (non-regexp) branch of `replace_match`: an empty search
string always matches at position 0 (source line 913-917); otherwise the
forward scan runs.  Returns the match bounds or `none`. -/
def replace_match_literal (search input : List Nat) : Option (Nat × Nat) :=
  match search with
  | [] => some (0, 0)
  | first :: stail => replace_match_literal_scan first stail input 0

/-- An execution oracle built from the literal matcher: one call of
`replace_match` on a literal search ignores the lastIndex state. -/
def exec_of_literal (search input : List Nat) :
    Nat → Option (Nat × Nat × Nat) :=
  fun _ =>
    match replace_match_literal search input with
    | none => none
    | some (ms, me) => some (ms, me, 0)

/-- The oracle of a zero-width pattern with the global flag: with lastIndex
`li` at most the subject length, exec reports the empty match `[li, li)`
and leaves lastIndex at `li`; beyond the subject it reports no match. -/
def zero_width_exec (len : Nat) : Nat → Option (Nat × Nat × Nat) :=
  fun li => if li ≤ len then some (li, li, li) else none

/-- `ecma_builtin_string_prototype_object_replace_loop`
(source lines 1227-1327).  The regexp collaborator and the replacement
construction are abstracted: `exec li` returns the match bounds and the
lastIndex value exec itself leaves behind (`ecma_regexp_exec_helper`
advances lastIndex when global), or `none`; `getStr ms me` is the
replacement text `replace_get_string` produces for a match `[ms, me)`.
State: `li` lastIndex, `prev` previous_start, `isGlobal` the (mutable)
global flag, `res` the accumulated result, `count` the number of
substitutions performed.  On no match the subject tail `[prev, length)` is
appended and the loop terminates.  After a match the subject chunk
`[prev, ms)` and the replacement are appended and `prev` becomes `me`;
a non-global search terminates; a global zero-width match at the subject
end clears the global flag (terminating with the empty tail), otherwise a
zero-width match forces lastIndex to `me + 1` before the next exec.
`fuel` bounds the recursion; running out yields `none`. -/
def replace_loop (input : List Nat) (exec : Nat → Option (Nat × Nat × Nat))
    (getStr : Nat → Nat → List Nat) :
    Nat → Nat → Nat → Bool → List Nat → Nat → Option (List Nat × Nat)
  | 0, _, _, _, _, _ => none
  | fuel + 1, li, prev, isGlobal, res, count =>
    match exec li with
    | none => some (res ++ listSub input prev input.length, count)
    | some (ms, me, li2) =>
      if isGlobal then
        if ms = me then
          if me = input.length then
            some ((res ++ listSub input prev ms ++ getStr ms me) ++
              listSub input me input.length, count + 1)
          else
            replace_loop input exec getStr fuel (me + 1) me true
              (res ++ listSub input prev ms ++ getStr ms me) (count + 1)
        else
          replace_loop input exec getStr fuel li2 me true
            (res ++ listSub input prev ms ++ getStr ms me) (count + 1)
      else
        some ((res ++ listSub input prev ms ++ getStr ms me) ++
          listSub input me input.length, count + 1)

/-- Modelled from the spec: high-surrogate test of lit-char-helpers. -/
def lit_is_code_unit_high_surrogate (c : Nat) : Bool :=
  decide (0xD800 ≤ c ∧ c ≤ 0xDBFF)

/-- Modelled from the spec: low-surrogate test of lit-char-helpers. -/
def lit_is_code_unit_low_surrogate (c : Nat) : Bool :=
  decide (0xDC00 ≤ c ∧ c ≤ 0xDFFF)

/-- Modelled from the spec: combining a valid surrogate pair into the
code point it denotes. -/
def lit_convert_surrogate_pair_to_code_point (hs ls : Nat) : Nat :=
  0x10000 + (hs - 0xD800) * 0x400 + (ls - 0xDC00)

/-- Modelled from the spec: UTF-8 bytes of one code unit (at most three
bytes; the function returns the bytes, its length is the byte count the
measure pass accumulates). -/
def lit_code_unit_to_utf8 (cu : Nat) : List Nat :=
  if cu < 0x80 then [cu]
  else if cu < 0x800 then [0xC0 + cu / 0x40, 0x80 + cu % 0x40]
  else [0xE0 + cu / 0x1000, 0x80 + cu / 0x40 % 0x40, 0x80 + cu % 0x40]

/-- Modelled from the spec: UTF-8 bytes of one code point (up to four
bytes; a code point combined from a surrogate pair takes four). -/
def lit_code_point_to_utf8 (cp : Nat) : List Nat :=
  if cp < 0x80 then [cp]
  else if cp < 0x800 then [0xC0 + cp / 0x40, 0x80 + cp % 0x40]
  else if cp < 0x10000 then
    [0xE0 + cp / 0x1000, 0x80 + cp / 0x40 % 0x40, 0x80 + cp % 0x40]
  else
    [0xF0 + cp / 0x40000, 0x80 + cp / 0x1000 % 0x40,
      0x80 + cp / 0x40 % 0x40, 0x80 + cp % 0x40]

/-- The measure pass of
`ecma_builtin_string_prototype_object_conversion_helper`
(source lines 1806-1852): walk the code units; a unit opening a valid
surrogate pair contributes the byte length of the combined code point and
the low unit is skipped; any other unit is mapped through the case table
`cm` (`lit_char_to_lower_case` or `lit_char_to_upper_case`, abstracted as
a function from a unit to its replacement units) and each produced unit
contributes its UTF-8 byte length.  A high surrogate at the end of the
string has no following unit (the peek sees no character) and is handled
by the one-unit clause. -/
def conversion_measure (cm : Nat → List Nat) : List Nat → Nat
  | [] => 0
  | [c] => ((cm c).map fun u => (lit_code_unit_to_utf8 u).length).sum
  | c :: n :: rest =>
    if lit_is_code_unit_high_surrogate c ∧ lit_is_code_unit_low_surrogate n then
      (lit_code_point_to_utf8 (lit_convert_surrogate_pair_to_code_point c n)).length +
        conversion_measure cm rest
    else
      ((cm c).map fun u => (lit_code_unit_to_utf8 u).length).sum +
        conversion_measure cm (n :: rest)

/-- The materialize pass of `conversion_helper` (source lines 1854-1907):
the same walk, writing the bytes instead of counting them. -/
def conversion_write (cm : Nat → List Nat) : List Nat → List Nat
  | [] => []
  | [c] => ((cm c).map lit_code_unit_to_utf8).flatten
  | c :: n :: rest =>
    if lit_is_code_unit_high_surrogate c ∧ lit_is_code_unit_low_surrogate n then
      lit_code_point_to_utf8 (lit_convert_surrogate_pair_to_code_point c n) ++
        conversion_write cm rest
    else
      ((cm c).map lit_code_unit_to_utf8).flatten ++ conversion_write cm (n :: rest)

/-- Modelled from the spec: the fixed whitespace table of
lit-char-helpers (ECMA-262 WhiteSpace). -/
def lit_char_is_white_space (c : Nat) : Bool :=
  decide (c = 0x09 ∨ c = 0x0B ∨ c = 0x0C ∨ c = 0x20 ∨ c = 0xA0 ∨
    c = 0xFEFF ∨ c = 0x1680 ∨ c = 0x180E ∨ (0x2000 ≤ c ∧ c ≤ 0x200A) ∨
    c = 0x202F ∨ c = 0x205F ∨ c = 0x3000)

/-- Modelled from the spec: the fixed line-terminator table of
lit-char-helpers (ECMA-262 LineTerminator). -/
def lit_char_is_line_terminator (c : Nat) : Bool :=
  decide (c = 0x0A ∨ c = 0x0D ∨ c = 0x2028 ∨ c = 0x2029)

/-- `ecma_string_get_size`: the UTF-8 byte size of the string (each code
unit contributes one to three bytes). -/
def ecma_string_get_size (s : List Nat) : Nat :=
  (s.map fun u => (lit_code_unit_to_utf8 u).length).sum

/-- Modelled from the spec: `lit_utf8_string_code_unit_at`, the code-unit
access of the StringValue interface.  A position beyond the last code unit
has no defined result (the accessor asserts); this is `none` here. -/
def lit_utf8_string_code_unit_at (s : List Nat) (i : Nat) : Option Nat :=
  s.get? i

/-- The forward scan of `ecma_builtin_string_prototype_object_trim`
(source lines 2022-2037): starting at `p`, advance while the code unit at
`p` is classified whitespace or line terminator and `p` is below the
working length `len`.  An out-of-range access propagates as `none`.
`fuel` bounds the recursion (`len + 1` always suffices). -/
def trim_front_scan (s : List Nat) (len : Nat) : Nat → Nat → Option Nat
  | 0, _ => none
  | fuel + 1, p =>
    if p < len then
      match lit_utf8_string_code_unit_at s p with
      | none => none
      | some c =>
        if lit_char_is_white_space c ∨ lit_char_is_line_terminator c then
          trim_front_scan s len fuel (p + 1)
        else some p
    else some p

/-- The backward scan of `trim` (source lines 2039-2053): count `q` while
`q` is below `bound` (the working length minus the skipped front) and the
code unit at position `len - q - 1` is classified.  An out-of-range access
propagates as `none`. -/
def trim_back_scan (s : List Nat) (len bound : Nat) : Nat → Nat → Option Nat
  | 0, _ => none
  | fuel + 1, q =>
    if q < bound then
      match lit_utf8_string_code_unit_at s (len - q - 1) with
      | none => none
      | some c =>
        if lit_char_is_white_space c ∨ lit_char_is_line_terminator c then
          trim_back_scan s len bound fuel (q + 1)
        else some q
    else some q

/-- `ecma_builtin_string_prototype_object_trim` (source lines 1993-2068)
after coercion of the receiver.  Note source line 2012: the working
length is assigned `ecma_string_get_size`, the BYTE size, not the
code-unit count; both scans then index code units up to that byte size,
and the final length is `size - front - back` when `front < size`
(source line 2055), with the substring taken from `front`. -/
def ecma_trim (s : List Nat) : Option (List Nat) :=
  let size := ecma_string_get_size s
  let length := ecma_string_get_size s
  match trim_front_scan s length (length + 1) 0 with
  | none => none
  | some front =>
    match trim_back_scan s length (length - front) (length + 1) 0 with
    | none => none
    | some back =>
      let new_len := if front < size then size - front - back else 0
      some (listSub s front (front + new_len))

/-- C2, counterexample: the claim states a two-digit group reference is
consumed as two digits only if the group exists.  On a match with groups
0 and 1 only (group 1 being "A"), the claim therefore reads the template
"$12" as the reference $1 followed by the literal "2", predicting "A2";
the code consumes both digits unconditionally, reads the missing group 12
and yields the empty string. -/
theorem replace_template_missing_two_digit_group_cex :
    replace_template
      (⟨[109], 1, 0, 1,
        fun i => if i = 0 then some [109] else if i = 1 then some [65] else none⟩ :
        ReplaceTemplateCtx)
      [36, 49, 50] = some [] ∧
    some ([] : List Nat) ≠ some [65, 50] := ⟨by decide, by decide⟩

/-- C2, amended: in template replacement, a dollar followed by a digit 1-9
and then any digit 0-9 is always consumed as a two-digit group reference,
whether or not that group exists in the match result; the referenced
group string is appended, the empty string when the group is missing
(undefined).  Stated as the exact step the scanning loop takes from any
state at such a position. -/
theorem replace_template_two_digit_always_consumed
    (ctx : ReplaceTemplateCtx) (repl : List Nat) (fuel it prev cur : Nat)
    (res : List Nat) (d1 d2 : Nat)
    (h0 : repl.getD it 0 = LIT_CHAR_DOLLAR_SIGN)
    (hit : it + 1 < repl.length)
    (hd1 : repl.getD (it + 1) 0 = d1)
    (h11 : LIT_CHAR_1 ≤ d1) (h19 : d1 ≤ LIT_CHAR_9)
    (hd2 : repl.getD (it + 2) 0 = d2)
    (h20 : LIT_CHAR_0 ≤ d2) (h29 : d2 ≤ LIT_CHAR_9) :
    replace_template_loop ctx repl (fuel + 1) it prev cur res =
      replace_template_loop ctx repl fuel (it + 3) (cur + 3) (cur + 3)
        (res ++ listSub repl prev cur ++
          (ctx.groups ((d1 - LIT_CHAR_0) * 10 + (d2 - LIT_CHAR_0))).getD []) := by
  subst hd1
  subst hd2
  simp only [LIT_CHAR_0, LIT_CHAR_1, LIT_CHAR_9] at h11 h19 h20 h29
  have hn1 : ¬(repl.getD (it + 1) 0 = LIT_CHAR_DOLLAR_SIGN) := by
    simp only [LIT_CHAR_DOLLAR_SIGN]; omega
  have hn2 : ¬(repl.getD (it + 1) 0 = LIT_CHAR_GRAVE_ACCENT) := by
    simp only [LIT_CHAR_GRAVE_ACCENT]; omega
  have hn3 : ¬(repl.getD (it + 1) 0 = LIT_CHAR_SINGLE_QUOTE) := by
    simp only [LIT_CHAR_SINGLE_QUOTE]; omega
  have hn4 : ¬(repl.getD (it + 1) 0 = LIT_CHAR_AMPERSAND) := by
    simp only [LIT_CHAR_AMPERSAND]; omega
  rw [replace_template_loop, if_pos (show it < repl.length by omega),
    if_pos ⟨h0, hit⟩, if_neg hn1, if_neg hn2, if_neg hn3, if_neg hn4,
    if_pos ⟨h11, h19⟩, if_pos ⟨h20, h29⟩]

/-- Witness for the amended C2 theorem at the concrete template "$12". -/
theorem replace_template_two_digit_always_consumed_witness :
    (0 + 1 < [(36 : Nat), 49, 50].length) ∧
    replace_template_loop
        (⟨[109], 1, 0, 1,
          fun i => if i = 0 then some [109] else if i = 1 then some [65] else none⟩ :
          ReplaceTemplateCtx) [36, 49, 50] (3 + 1) 0 0 0 [] =
      replace_template_loop
        (⟨[109], 1, 0, 1,
          fun i => if i = 0 then some [109] else if i = 1 then some [65] else none⟩ :
          ReplaceTemplateCtx) [36, 49, 50] 3 (0 + 3) (0 + 3) (0 + 3)
        ([] ++ listSub [36, 49, 50] 0 0 ++
          ((⟨[109], 1, 0, 1,
            fun i => if i = 0 then some [109] else if i = 1 then some [65] else none⟩ :
            ReplaceTemplateCtx).groups
              ((49 - LIT_CHAR_0) * 10 + (50 - LIT_CHAR_0))).getD []) :=
  ⟨by decide,
    replace_template_two_digit_always_consumed _ [36, 49, 50] 3 0 0 0 [] 49 50
      (by decide) (by decide) (by decide) (by decide) (by decide) (by decide)
      (by decide) (by decide)⟩

/-- C3, counterexample: the claim states that a dollar followed by a
character outside dollar, backtick, single quote and the digits 1-9 is
emitted literally, in particular that the template "$&" comes out as the
literal text "$&".  On a match whose whole-match string is "m", the code
substitutes the whole match: the template "$&" yields "m", not "$&". -/
theorem replace_template_dollar_ampersand_cex :
    replace_template
      (⟨[109], 1, 0, 1, fun i => if i = 0 then some [109] else none⟩ :
        ReplaceTemplateCtx) [36, 38] = some [109] ∧
    some [109] ≠ some [36, 38] := ⟨by decide, by decide⟩

/-- C3, amended: the sequence dollar-ampersand substitutes the whole match
(entry 0 of the match result); every non-dollar character passes through
unchanged (the scan only advances over it, leaving it inside the pending
literal chunk); and a dollar followed by a character that is none of
dollar, ampersand, backtick, single quote, a digit 1-9, or a zero whose
next character is a digit 1-9, stays literal (the scan only advances over
the dollar).  Stated as the exact steps the scanning loop takes. -/
theorem replace_template_dollar_escape_cases
    (ctx : ReplaceTemplateCtx) (repl : List Nat) (fuel it prev cur : Nat)
    (res : List Nat) :
    (repl.getD it 0 = LIT_CHAR_DOLLAR_SIGN → it + 1 < repl.length →
      repl.getD (it + 1) 0 = LIT_CHAR_AMPERSAND →
      replace_template_loop ctx repl (fuel + 1) it prev cur res =
        replace_template_loop ctx repl fuel (it + 2) (cur + 2) (cur + 2)
          (res ++ listSub repl prev cur ++ (ctx.groups 0).getD [])) ∧
    (it < repl.length → repl.getD it 0 ≠ LIT_CHAR_DOLLAR_SIGN →
      replace_template_loop ctx repl (fuel + 1) it prev cur res =
        replace_template_loop ctx repl fuel (it + 1) prev (cur + 1) res) ∧
    (repl.getD it 0 = LIT_CHAR_DOLLAR_SIGN → it + 1 < repl.length →
      repl.getD (it + 1) 0 ≠ LIT_CHAR_DOLLAR_SIGN →
      repl.getD (it + 1) 0 ≠ LIT_CHAR_AMPERSAND →
      repl.getD (it + 1) 0 ≠ LIT_CHAR_GRAVE_ACCENT →
      repl.getD (it + 1) 0 ≠ LIT_CHAR_SINGLE_QUOTE →
      ¬(LIT_CHAR_1 ≤ repl.getD (it + 1) 0 ∧ repl.getD (it + 1) 0 ≤ LIT_CHAR_9) →
      ¬(repl.getD (it + 1) 0 = LIT_CHAR_0 ∧
        LIT_CHAR_1 ≤ repl.getD (it + 2) 0 ∧ repl.getD (it + 2) 0 ≤ LIT_CHAR_9) →
      replace_template_loop ctx repl (fuel + 1) it prev cur res =
        replace_template_loop ctx repl fuel (it + 1) prev (cur + 1) res) := by
  refine ⟨?_, ?_, ?_⟩
  · intro h0 hit ha
    have hn1 : ¬(repl.getD (it + 1) 0 = LIT_CHAR_DOLLAR_SIGN) := by
      simp only [LIT_CHAR_AMPERSAND] at ha
      simp only [LIT_CHAR_DOLLAR_SIGN]; omega
    have hn2 : ¬(repl.getD (it + 1) 0 = LIT_CHAR_GRAVE_ACCENT) := by
      simp only [LIT_CHAR_AMPERSAND] at ha
      simp only [LIT_CHAR_GRAVE_ACCENT]; omega
    have hn3 : ¬(repl.getD (it + 1) 0 = LIT_CHAR_SINGLE_QUOTE) := by
      simp only [LIT_CHAR_AMPERSAND] at ha
      simp only [LIT_CHAR_SINGLE_QUOTE]; omega
    rw [replace_template_loop, if_pos (show it < repl.length by omega),
      if_pos ⟨h0, hit⟩, if_neg hn1, if_neg hn2, if_neg hn3, if_pos ha]
  · intro hlt hne
    rw [replace_template_loop, if_pos hlt, if_neg (fun hc => hne hc.1)]
  · intro h0 hit hn1 hn4 hn2 hn3 hnd hn0
    rw [replace_template_loop, if_pos (show it < repl.length by omega),
      if_pos ⟨h0, hit⟩, if_neg hn1, if_neg hn2, if_neg hn3, if_neg hn4,
      if_neg hnd, if_neg hn0]

/-- Witness for the amended C3 theorem at the concrete templates "$&",
"a" and "$x". -/
theorem replace_template_dollar_escape_cases_witness :
    (replace_template_loop
        (⟨[109], 1, 0, 1, fun i => if i = 0 then some [109] else none⟩ :
          ReplaceTemplateCtx) [36, 38] (1 + 1) 0 0 0 [] =
      replace_template_loop
        (⟨[109], 1, 0, 1, fun i => if i = 0 then some [109] else none⟩ :
          ReplaceTemplateCtx) [36, 38] 1 (0 + 2) (0 + 2) (0 + 2)
        ([] ++ listSub [36, 38] 0 0 ++
          (((⟨[109], 1, 0, 1, fun i => if i = 0 then some [109] else none⟩ :
            ReplaceTemplateCtx)).groups 0).getD [])) ∧
    (replace_template_loop
        (⟨[109], 1, 0, 1, fun i => if i = 0 then some [109] else none⟩ :
          ReplaceTemplateCtx) [97] (1 + 1) 0 0 0 [] =
      replace_template_loop
        (⟨[109], 1, 0, 1, fun i => if i = 0 then some [109] else none⟩ :
          ReplaceTemplateCtx) [97] 1 (0 + 1) 0 (0 + 1) []) ∧
    (replace_template_loop
        (⟨[109], 1, 0, 1, fun i => if i = 0 then some [109] else none⟩ :
          ReplaceTemplateCtx) [36, 120] (1 + 1) 0 0 0 [] =
      replace_template_loop
        (⟨[109], 1, 0, 1, fun i => if i = 0 then some [109] else none⟩ :
          ReplaceTemplateCtx) [36, 120] 1 (0 + 1) 0 (0 + 1) []) :=
  ⟨(replace_template_dollar_escape_cases _ [36, 38] 1 0 0 0 []).1
      (by decide) (by decide) (by decide),
    ((replace_template_dollar_escape_cases _ [97] 1 0 0 0 []).2.1
      (by decide) (by decide)),
    ((replace_template_dollar_escape_cases _ [36, 120] 1 0 0 0 []).2.2
      (by decide) (by decide) (by decide) (by decide) (by decide) (by decide)
      (by decide) (by decide))⟩

/-- C4: if the pattern has zero matches in the subject (the first exec of
the loop reports no match), the replace loop appends the whole subject
tail `[0, length)` to the empty accumulator and terminates with the
subject unchanged (and zero substitutions), for any exec oracle, any
replacement construction and either value of the global flag. -/
theorem replace_loop_zero_matches_identity (input : List Nat)
    (exec : Nat → Option (Nat × Nat × Nat)) (getStr : Nat → Nat → List Nat)
    (fuel li : Nat) (g : Bool) (h : exec li = none) :
    replace_loop input exec getStr (fuel + 1) li 0 g [] 0 = some (input, 0) := by
  rw [replace_loop, h]
  simp [listSub]

/-- Witness for C4 at a concrete literal pattern with zero matches: the
search string "x" does not occur in the subject "abc". -/
theorem replace_loop_zero_matches_identity_witness :
    exec_of_literal [120] [97, 98, 99] 0 = none ∧
    replace_loop [97, 98, 99] (exec_of_literal [120] [97, 98, 99])
        (fun _ _ => []) (3 + 1) 0 0 false [] 0 = some ([97, 98, 99], 0) :=
  ⟨by decide,
    replace_loop_zero_matches_identity [97, 98, 99] _ _ 3 0 false (by decide)⟩

/-- Helper for C5: running the replace loop against the zero-width global
oracle from lastIndex `li` with `m` positions left before the subject end
performs exactly `m + 1` further substitutions and terminates, given
enough fuel. -/
theorem replace_loop_zw_aux (input : List Nat) (getStr : Nat → Nat → List Nat) :
    ∀ m fuel li prev res count, li + m = input.length → m + 2 ≤ fuel →
      ∃ r, replace_loop input (zero_width_exec input.length) getStr
          fuel li prev true res count = some (r, count + m + 1) := by
  intro m
  induction m with
  | zero =>
    intro fuel li prev res count hlen hfuel
    obtain ⟨f, rfl⟩ : ∃ f, fuel = f + 1 := ⟨fuel - 1, by omega⟩
    have hli : li = input.length := by omega
    rw [replace_loop,
      show zero_width_exec input.length li = some (li, li, li) from by
        simp [zero_width_exec, hli]]
    simp [hli]
  | succ k ih =>
    intro fuel li prev res count hlen hfuel
    obtain ⟨f, rfl⟩ : ∃ f, fuel = f + 1 := ⟨fuel - 1, by omega⟩
    have hli : li ≤ input.length := by omega
    have hne : ¬(li = input.length) := by omega
    rw [replace_loop,
      show zero_width_exec input.length li = some (li, li, li) from by
        simp [zero_width_exec, hli]]
    simp only [if_pos rfl, if_neg hne, if_pos trivial]
    obtain ⟨r, hr⟩ := ih f (li + 1) li
      (res ++ listSub input prev li ++ getStr li li) (count + 1)
      (by omega) (by omega)
    refine ⟨r, ?_⟩
    rw [hr]
    congr 2
    omega

/-- C5: against the zero-width global oracle (every exec at lastIndex
`li ≤ length` reports the empty match at `li`), the replace loop on a
subject of length `len`, started from the reset state, terminates within
`len + 2` iterations having performed exactly `len + 1` substitutions.
The stepwise behaviour the claim describes is the embedded loop itself:
a zero-width match at the subject end clears the global flag and stops,
any other zero-width match sets lastIndex to the match end plus one
before the next exec. -/
theorem replace_loop_zero_width_global (input : List Nat)
    (getStr : Nat → Nat → List Nat) (fuel : Nat)
    (h : input.length + 2 ≤ fuel) :
    ∃ r, replace_loop input (zero_width_exec input.length) getStr
        fuel 0 0 true [] 0 = some (r, input.length + 1) := by
  have hx := replace_loop_zw_aux input getStr input.length fuel 0 0 [] 0
    (by omega) h
  simpa using hx

/-- Witness for C5 on the subject "ab": exactly 2 + 1 substitutions. -/
theorem replace_loop_zero_width_global_witness :
    [97, 98].length + 2 ≤ 4 ∧
    ∃ r, replace_loop [97, 98] (zero_width_exec [97, 98].length)
        (fun _ _ => [122]) 4 0 0 true [] 0 = some (r, [97, 98].length + 1) :=
  ⟨by decide,
    replace_loop_zero_width_global [97, 98] (fun _ _ => [122]) 4 (by decide)⟩

/-- C6: the claim states trim always returns the substring between the
two whitespace skips.  The routine assigns the BYTE size to its working
length (source line 2012) and indexes code units up to it, so on the
one-unit string with the two-byte code unit 0x00E9 the backward scan
requests the code unit at position 1, which is out of range (a fatal
assertion in the accessor): no trimmed string is produced.  On all-ASCII
strings, where byte size and code-unit count agree, the routine behaves
as claimed (second conjunct, the spec example trim of "  \t x \n "). -/
theorem trim_nonascii_out_of_range :
    ecma_trim [0xE9] = none ∧
    ecma_trim [32, 32, 9, 32, 120, 32, 10, 32] = some [120] :=
  ⟨by decide, by decide⟩

/-- C7: for every input string and every case-mapping table, the measure
pass and the materialize pass make identical per-code-unit decisions, so
the number of bytes the second pass writes equals the byte length the
first pass measured (the internal assertion at source line 1909 holds). -/
theorem conversion_measured_length_eq_written (cm : Nat → List Nat) :
    ∀ s : List Nat, (conversion_write cm s).length = conversion_measure cm s
  | [] => by simp [conversion_write, conversion_measure]
  | [c] => by
    simp [conversion_write, conversion_measure, List.length_flatten,
      List.map_map, Function.comp_def]
  | c :: n :: rest => by
    by_cases h : lit_is_code_unit_high_surrogate c = true ∧
        lit_is_code_unit_low_surrogate n = true
    · rw [conversion_write, conversion_measure, if_pos h, if_pos h]
      simp [conversion_measured_length_eq_written cm rest]
    · rw [conversion_write, conversion_measure, if_neg h, if_neg h]
      simp [conversion_measured_length_eq_written cm (n :: rest),
        List.length_flatten, List.map_map, Function.comp_def]

/-- C8, counterexample: the claim states surrogate code units are never
passed through the case-mapping table.  The conversion of the one-unit
string holding the lone high surrogate 0xD800 depends on the value of the
table at 0xD800: with the identity table it yields the bytes of the unit,
with a table sending 0xD800 to 0x41 it yields the byte 0x41.  The lone
surrogate is therefore passed through the table (only units opening a
valid pair bypass it). -/
theorem conversion_surrogate_passed_to_table_cex :
    conversion_write (fun u => [u]) [0xD800] ≠
      conversion_write (fun u => if u = 0xD800 then [0x41] else [u]) [0xD800] := by
  decide

/-- C8, amended: only a code unit opening a valid surrogate pair bypasses
the case mapping (the pair is emitted as the UTF-8 of the combined code
point, unconverted); an unpaired surrogate unit is passed to the
case-mapping function like any other unit, and for any table that leaves
surrogates unchanged (as the actual table does, having no entries for
them) every surrogate unit is still emitted unconverted. -/
theorem conversion_unpaired_surrogate (cm : Nat → List Nat)
    (hcm : ∀ u, 0xD800 ≤ u → u ≤ 0xDFFF → cm u = [u]) :
    (∀ u rest, 0xD800 ≤ u → u ≤ 0xDFFF →
      ¬(lit_is_code_unit_high_surrogate u = true ∧
        lit_is_code_unit_low_surrogate (rest.headD 0) = true) →
      conversion_write cm (u :: rest) =
        lit_code_unit_to_utf8 u ++ conversion_write cm rest) ∧
    (∀ hu lu rest, lit_is_code_unit_high_surrogate hu = true →
      lit_is_code_unit_low_surrogate lu = true →
      conversion_write cm (hu :: lu :: rest) =
        lit_code_point_to_utf8
            (lit_convert_surrogate_pair_to_code_point hu lu) ++
          conversion_write cm rest) := by
  constructor
  · intro u rest hu1 hu2 hnp
    cases rest with
    | nil =>
      simp only [conversion_write]
      rw [hcm u hu1 hu2]
      simp
    | cons n r =>
      rw [conversion_write, if_neg (by simpa using hnp), hcm u hu1 hu2]
      simp
  · intro hu lu rest hh hl
    rw [conversion_write, if_pos ⟨hh, hl⟩]

/-- Witness for the amended C8 theorem: a lone low surrogate under the
identity table is emitted unconverted. -/
theorem conversion_unpaired_surrogate_witness :
    conversion_write (fun u => [u]) [0xDC00] =
      lit_code_unit_to_utf8 0xDC00 ++ conversion_write (fun u => [u]) [] :=
  (conversion_unpaired_surrogate (fun u => [u]) (fun u h1 h2 => rfl)).1
    0xDC00 [] (by decide) (by decide) (by decide)
